import Mathlib

/-!
Verification of the mapping ingestion and symbol-rewrite engine of the
vulture mod deobfuscator (src/src/mod_deobfuscator.py).

Source text is embedded as `List Char`.  The Python functions
`ModDeobfuscator.apply_mappings_to_java`, `MCPMappingLoader.load_from_proguard`
and `ModDeobfuscator.deobfuscate` are translated definition by definition.
The rewriter applies, for each mapping entry in table order, a sequence of
`re.sub` calls; each regular expression used by the source has the shape of a
word boundary, literal keywords, whitespace runs and one literal identifier,
so each one is embedded as a dedicated scanning function with Python
`re.sub` semantics (leftmost, non-overlapping, greedy, matching always
against the original text).  The word-boundary test before a literal is the
one Python applies when the literal starts and ends with a word character,
which holds for every identifier key the loaders produce.
-/

namespace Vulture

/-- Python regex word character, ASCII range (identifier keys are ASCII). -/
def isWordChar (c : Char) : Bool :=
  c.isAlpha || c.isDigit || c == '_'

/-- Python regex whitespace character. -/
def isSpaceChar (c : Char) : Bool :=
  c == ' ' || c == '\t' || c == '\n' || c == '\x0d' || c == '\x0b' || c == '\x0c'

/-- Whether the character preceding the current scan position is a word
character; at the start of the text there is none. -/
def prevIsWord : Option Char → Bool
  | none => false
  | some c => isWordChar c

/-- Match a literal at the head of the text, returning the remainder. -/
def dropLit : List Char → List Char → Option (List Char)
  | [], s => some s
  | _ :: _, [] => none
  | l :: ls, c :: cs => if l == c then dropLit ls cs else none

/-- Match a nonempty whitespace run, greedily, regex S-plus. -/
def dropSpaces1 : List Char → Option (List Char)
  | [] => none
  | c :: cs => if isSpaceChar c then some (cs.dropWhile isSpaceChar) else none

/-- Match a possibly empty whitespace run, greedily, regex S-star. -/
def dropSpaces0 (s : List Char) : List Char :=
  s.dropWhile isSpaceChar

/-- Word boundary after a word character: end of text or a non-word char. -/
def boundAfter : List Char → Bool
  | [] => true
  | c :: _ => !isWordChar c

/-- Python substring containment test, `sub in s`. -/
def hasSub (p : List Char) : List Char → Bool
  | [] => List.isPrefixOf p []
  | c :: cs => List.isPrefixOf p (c :: cs) || hasSub p cs

/-- One step of Python re.sub: a matcher receives the previous original
character and the text at the scan position, and returns the replacement
plus the unconsumed remainder when it matches there. -/
def reSubGo (m : Option Char → Char → List Char → Option (List Char × List Char)) :
    Nat → Option Char → List Char → List Char
  | 0, _, s => s
  | _ + 1, _, [] => []
  | fuel + 1, prev, c :: cs =>
    match m prev c cs with
    | some (rep, rest) =>
      rep ++ reSubGo m fuel
        (some (((c :: cs).take ((c :: cs).length - rest.length)).getLastD c)) rest
    | none => c :: reSubGo m fuel (some c) cs

/-- Python re.sub over the whole text: every successful match of the
patterns below consumes at least one character, so a fuel of the text
length is never exhausted. -/
def reSub (m : Option Char → Char → List Char → Option (List Char × List Char))
    (s : List Char) : List Char :=
  reSubGo m s.length none s

/-- Matcher for the source patterns built from a keyword, regex
b kw s-plus obf b, replaced by the keyword, one space and the mapped name
(used with kw = class, extends, implements). -/
def kwObfMatcher (kw obf name : List Char) (prev : Option Char) (c : Char)
    (cs : List Char) : Option (List Char × List Char) :=
  if prevIsWord prev then none
  else
    match dropLit kw (c :: cs) with
    | none => none
    | some s1 =>
      match dropSpaces1 s1 with
      | none => none
      | some s2 =>
        match dropLit obf s2 with
        | none => none
        | some s3 =>
          if boundAfter s3 then some (kw ++ ' ' :: name, s3) else none

/-- Matcher for the variable and field type pattern of the source,
regex b obf s-plus capture of w-plus, replaced by the mapped name, one
space and the captured word. -/
def typeVarMatcher (obf name : List Char) (prev : Option Char) (c : Char)
    (cs : List Char) : Option (List Char × List Char) :=
  if prevIsWord prev then none
  else
    match dropLit obf (c :: cs) with
    | none => none
    | some s1 =>
      match dropSpaces1 s1 with
      | none => none
      | some s2 =>
        let w := s2.takeWhile isWordChar
        if w.isEmpty then none
        else some (name ++ ' ' :: w, s2.dropWhile isWordChar)

/-- Matcher for the constructor pattern of the source, regex
b new s-plus obf s-star lparen, replaced by new, a space, the mapped name
and the parenthesis. -/
def newObfMatcher (obf name : List Char) (prev : Option Char) (c : Char)
    (cs : List Char) : Option (List Char × List Char) :=
  if prevIsWord prev then none
  else
    match dropLit ['n', 'e', 'w'] (c :: cs) with
    | none => none
    | some s1 =>
      match dropSpaces1 s1 with
      | none => none
      | some s2 =>
        match dropLit obf s2 with
        | none => none
        | some s3 =>
          match dropLit ['('] (dropSpaces0 s3) with
          | none => none
          | some s4 => some (['n', 'e', 'w', ' '] ++ name ++ ['('], s4)

/-- Matcher for the method call pattern of the source, regex
b obfMethod s-star lparen, replaced by the mapped method name and the
parenthesis. -/
def methodCallMatcher (obfMethod name : List Char) (prev : Option Char) (c : Char)
    (cs : List Char) : Option (List Char × List Char) :=
  if prevIsWord prev then none
  else
    match dropLit obfMethod (c :: cs) with
    | none => none
    | some s1 =>
      match dropLit ['('] (dropSpaces0 s1) with
      | none => none
      | some s2 => some (name ++ ['('], s2)

/-- Source line 348: mapped.split(chr 46)[-1] if chr 46 in mapped else
mapped — the simple class name is the last dot-separated segment. -/
def mappedClassName (mapped : List Char) : List Char :=
  if mapped.contains '.' then
    (mapped.reverse.takeWhile (fun c => !(c == '.'))).reverse
  else mapped

/-- Source lines 346-381: the five re.sub calls one class entry performs,
in source order. -/
def applyClassEntry (content : List Char) (obf mapped : List Char) : List Char :=
  let name := mappedClassName mapped
  let c1 := reSub (kwObfMatcher ['c', 'l', 'a', 's', 's'] obf name) content
  let c2 := reSub (kwObfMatcher ['e', 'x', 't', 'e', 'n', 'd', 's'] obf name) c1
  let c3 := reSub (kwObfMatcher ['i', 'm', 'p', 'l', 'e', 'm', 'e', 'n', 't', 's'] obf name) c2
  let c4 := reSub (typeVarMatcher obf name) c3
  reSub (newObfMatcher obf name) c4

/-- Python key.split(dot, 1): the part before the first dot and the part
after it.  The source unpacks both components, so its keys always contain
a dot (a dotless key would fail the unpacking); on such keys this total
embedding returns an empty second component. -/
def splitDot1 (key : List Char) : List Char × List Char :=
  (key.takeWhile (fun c => !(c == '.')),
   (key.dropWhile (fun c => !(c == '.'))).tail)

/-- Source lines 384-395: one method entry, applied only when the bare
obfuscated method name occurs as a substring of the content. -/
def applyMethodEntry (content : List Char) (obfKey mappedKey : List Char) : List Char :=
  let obfMethod := (splitDot1 obfKey).2
  let mappedMethod := (splitDot1 mappedKey).2
  if hasSub obfMethod content then
    reSub (methodCallMatcher obfMethod mappedMethod) content
  else content

/-- Source lines 344-395: fold every class entry, then every method entry,
over the content, in table (insertion) order. -/
def rewriteCore (classes methods : List (List Char × List Char))
    (content : List Char) : List Char :=
  methods.foldl (fun acc p => applyMethodEntry acc p.1 p.2)
    (classes.foldl (fun acc p => applyClassEntry acc p.1 p.2) content)

/-- Source lines 339-401: the rewriter returns the new content and the
changed flag, content not-equal original. -/
def applyMappingsToJava (classes methods : List (List Char × List Char))
    (content : List Char) : List Char × Bool :=
  (rewriteCore classes methods content,
   decide (rewriteCore classes methods content ≠ content))

/-- Python str.strip with no argument: remove whitespace from both ends. -/
def pyStrip (s : List Char) : List Char :=
  ((s.dropWhile isSpaceChar).reverse.dropWhile isSpaceChar).reverse

/-- Python str.strip with a character set: remove any of the given
characters from both ends. -/
def stripChars (set : List Char) (s : List Char) : List Char :=
  ((s.dropWhile (fun c => set.contains c)).reverse.dropWhile
    (fun c => set.contains c)).reverse

/-- Python str.split on a nonempty separator string: split at every
non-overlapping leftmost occurrence.  Fuel-driven; a fuel of the text
length plus one is always sufficient. -/
def splitOnSepGo (sep : List Char) : Nat → List Char → List (List Char)
  | 0, s => [s]
  | _ + 1, [] => [[]]
  | fuel + 1, c :: cs =>
    if !sep.isEmpty && sep.isPrefixOf (c :: cs) then
      [] :: splitOnSepGo sep fuel ((c :: cs).drop sep.length)
    else
      match splitOnSepGo sep fuel cs with
      | [] => [[c]]
      | p :: ps => (c :: p) :: ps

/-- Python str.split on a separator string. -/
def splitOnSep (sep s : List Char) : List (List Char) :=
  splitOnSepGo sep (s.length + 1) s

/-- Python str.split with no argument: whitespace-run tokens, no empties. -/
def splitWSGo : Nat → List Char → List (List Char)
  | 0, _ => []
  | fuel + 1, s =>
    match s.dropWhile isSpaceChar with
    | [] => []
    | c :: cs =>
      (c :: cs.takeWhile (fun x => !isSpaceChar x)) ::
        splitWSGo fuel (cs.dropWhile (fun x => !isSpaceChar x))

/-- Python str.split with no argument. -/
def splitWS (s : List Char) : List (List Char) :=
  splitWSGo (s.length + 1) s

/-- Python dict assignment d[k] = v: update in place when the key exists,
append at the end otherwise (dicts preserve insertion order). -/
def dictInsert (d : List (List Char × List Char)) (k v : List Char) :
    List (List Char × List Char) :=
  if (List.lookup k d).isSome then
    d.map (fun p => if p.1 == k then (k, v) else p)
  else d ++ [(k, v)]

/-- Python dict.get(k, dflt). -/
def dictGetD (d : List (List Char × List Char)) (k dflt : List Char) : List Char :=
  (List.lookup k d).getD dflt

/-- The three mapping dictionaries of MCPMappingLoader. -/
structure Mappings where
  classes : List (List Char × List Char)
  methods : List (List Char × List Char)
  fields : List (List Char × List Char)
deriving DecidableEq

/-- The empty mapping store the loader starts from. -/
def emptyMappings : Mappings := ⟨[], [], []⟩

/-- The literal separator token of the ProGuard grammar: space, dash,
greater-than, space. -/
def sepArrow : List Char := [' ', '-', '>', ' ']

/-- The single-quote character stripped from ProGuard class names. -/
def quoteChar : Char := Char.ofNat 39

/-- Python truthiness of the current-class variable: None and the empty
string are falsy. -/
def curTruthy : Option (List Char) → Bool
  | none => false
  | some s => !s.isEmpty

/-- Source lines 114-154: processing of one line of a ProGuard mapping
file, threading the current obfuscated class and the mapping store.
The field branch takes the last whitespace token of the left part; the
source indexes with -1, which assumes that token list is nonempty, so
this total embedding defaults to the empty name there. -/
def proguardStep (st : Option (List Char) × Mappings) (rawLine : List Char) :
    Option (List Char) × Mappings :=
  let line := pyStrip rawLine
  if line.isEmpty || line.headD ' ' == '#' then st
  else if hasSub sepArrow line && line.getLastD ' ' == ':' then
    match splitOnSep sepArrow line with
    | [p0, p1] =>
      let original := stripChars [quoteChar] p0
      let obf := stripChars [quoteChar, ' ', ':'] p1
      (some obf, { st.2 with classes := dictInsert st.2.classes obf original })
    | _ => st
  else if curTruthy st.1 && hasSub sepArrow line && line.contains '(' then
    match st.1, splitOnSep sepArrow line with
    | some cur, [p0, p1] =>
      let obf := pyStrip p1
      if p0.contains '(' then
        let methodName := p0.takeWhile (fun c => !(c == '('))
        let key := cur ++ '.' :: obf
        let val := dictGetD st.2.classes cur cur ++ '.' :: methodName
        (st.1, { st.2 with methods := dictInsert st.2.methods key val })
      else st
    | _, _ => st
  else if curTruthy st.1 && hasSub sepArrow line && !line.contains '(' then
    match st.1, splitOnSep sepArrow line with
    | some cur, [p0, p1] =>
      let fieldName := (splitWS p0).getLastD []
      let obf := pyStrip p1
      let key := cur ++ '/' :: obf
      let val := dictGetD st.2.classes cur cur ++ '/' :: fieldName
      (st.1, { st.2 with fields := dictInsert st.2.fields key val })
    | _, _ => st
  else st

/-- Source lines 108-158: load_from_proguard over the list of lines of the
file, starting with no current class and empty mappings. -/
def loadProguard (lines : List (List Char)) : Mappings :=
  (lines.foldl proguardStep (none, emptyMappings)).2

/-- One source file of the batch: its path relative to the decompiled root,
and its content, none when reading it raises. -/
def SrcFile := List Char × Option (List Char)

/-- The observable outcome of ModDeobfuscator.deobfuscate: the files
written (mirrored relative path and rewritten content, in order), the
count of changed files, and whether an exception escaped the loop. -/
structure BatchOutcome where
  writes : List (List Char × List Char)
  changedCount : Nat
  aborted : Bool
deriving DecidableEq

/-- Source lines 420-429: the per-file loop of deobfuscate.  Each file is
read, rewritten and written inside apply_mappings_to_java; a read failure
raises out of the loop, so files written before it persist and later files
are never processed. -/
def deobfuscateBatch (classes methods : List (List Char × List Char)) :
    List (List Char × Option (List Char)) → BatchOutcome
  | [] => ⟨[], 0, false⟩
  | f :: fs =>
    match f.2 with
    | none => ⟨[], 0, true⟩
    | some text =>
      let r := applyMappingsToJava classes methods text
      let rest := deobfuscateBatch classes methods fs
      ⟨(f.1, r.1) :: rest.writes,
       (if r.2 then 1 else 0) + rest.changedCount, rest.aborted⟩

/-- A nonempty string of word characters: the shape of every obfuscated
identifier key the loaders produce. -/
def isIdentChars (s : List Char) : Bool :=
  !s.isEmpty && s.all isWordChar

/-- Well-formedness of a mapping table as the source assumes it: class
keys are identifiers (so the word-boundary tests of the patterns coincide
with this embedding), and method keys on both sides contain a dot (the
source unpacks key.split(dot, 1) into two variables, which raises on a
dotless key), with an identifier as bare obfuscated method name. -/
def wfTable (classes methods : List (List Char × List Char)) : Prop :=
  (∀ p ∈ classes, isIdentChars p.1 = true) ∧
  (∀ p ∈ methods, '.' ∈ p.1 ∧ '.' ∈ p.2 ∧ isIdentChars (splitDot1 p.1).2 = true)

/-- Claim C1, counterexample: with the single class mapping a to Foo, the
text a a a rewrites to Foo a a, and rewriting that output again changes it
further, to Foo Foo a with changed true — the sequential per-entry regex
substitution is not idempotent. -/
theorem c1_counterexample :
    applyMappingsToJava [("a".data, "Foo".data)] [] "a a a".data =
      ("Foo a a".data, true) ∧
    applyMappingsToJava [("a".data, "Foo".data)] [] "Foo a a".data =
      ("Foo Foo a".data, true) ∧
    "Foo Foo a".data ≠ "Foo a a".data := by decide

/-- Claim C1 (corrected): rewriting a second time yields the same text
again only when the first pass already reported changed false; in that
case the second pass returns the identical result. -/
theorem c1_theorem (classes methods : List (List Char × List Char))
    (content : List Char) (_hwf : wfTable classes methods)
    (h : (applyMappingsToJava classes methods content).2 = false) :
    applyMappingsToJava classes methods
        (applyMappingsToJava classes methods content).1 =
      applyMappingsToJava classes methods content := by
  have h1 : rewriteCore classes methods content = content := by
    simpa [applyMappingsToJava] using h
  simp [applyMappingsToJava, h1]

/-- Claim C1, witness for the corrected statement at the table a to Foo
and the unchanged text abc. -/
theorem c1_witness :
    applyMappingsToJava [("a".data, "Foo".data)] []
        (applyMappingsToJava [("a".data, "Foo".data)] [] "abc".data).1 =
      applyMappingsToJava [("a".data, "Foo".data)] [] "abc".data :=
  c1_theorem [("a".data, "Foo".data)] [] "abc".data
    (by constructor <;> decide) (by decide)

/-- Claim C2, counterexample: with the class mapping a to Foo, the
identifier occurrence inside the string literal of the text is rewritten,
so the literal region does not appear unchanged in the output. -/
theorem c2_counterexample :
    applyMappingsToJava [("a".data, "Foo".data)] [] "s = \"a x\";".data =
      ("s = \"Foo x\";".data, true) ∧
    "s = \"Foo x\";".data ≠ "s = \"a x\";".data := by decide

/-- Claim C2 (corrected): the rewriter has no lexical awareness — its
regular expressions are applied uniformly across the whole text, so
occurrences inside block comments and line comments (and, as the
counterexample shows, string literals) are substituted whenever a pattern
matches. -/
theorem c2_theorem :
    applyMappingsToJava [("a".data, "Foo".data)] [] "/* a b */ // a c".data =
      ("/* Foo b */ // Foo c".data, true) := by decide

/-- Claim C3, counterexample: a three-file tree whose middle file fails to
read produces an aborted batch in which the third file is never written —
not a completed run with filesScanned three and filesFailed one. -/
theorem c3_counterexample :
    deobfuscateBatch [] [] [("A".data, some "x".data), ("B".data, none),
      ("C".data, some "y".data)] = ⟨[("A".data, "x".data)], 0, true⟩ := by decide

/-- Claim C3 (corrected): a single failing file aborts the batch — the
exception escapes the loop of deobfuscate, the files before the failing
one are the only ones written, and no failure count is aggregated. -/
theorem c3_theorem (classes methods : List (List Char × List Char))
    (pre post : List (List Char × Option (List Char))) (p : List Char)
    (_hwf : wfTable classes methods) (hpre : ∀ f ∈ pre, f.2.isSome) :
    (deobfuscateBatch classes methods (pre ++ (p, none) :: post)).aborted = true ∧
    (deobfuscateBatch classes methods (pre ++ (p, none) :: post)).writes =
      pre.map (fun f =>
        (f.1, (applyMappingsToJava classes methods (f.2.getD [])).1)) := by
  induction pre with
  | nil => simp [deobfuscateBatch]
  | cons f fs ih =>
    obtain ⟨t, ht⟩ := Option.isSome_iff_exists.mp (hpre f (List.mem_cons_self f fs))
    have ih' := ih (fun g hg => hpre g (List.mem_cons_of_mem f hg))
    simp [deobfuscateBatch, ht, ih'.1, ih'.2]

/-- Claim C3, witness for the corrected statement on a concrete tree with
one readable file before and one after the failing file. -/
theorem c3_witness :
    (deobfuscateBatch [] [] ([("A".data, some "x".data)] ++
        ("B".data, (none : Option (List Char))) ::
        [("C".data, some "y".data)])).aborted = true ∧
    (deobfuscateBatch [] [] ([("A".data, some "x".data)] ++
        ("B".data, (none : Option (List Char))) ::
        [("C".data, some "y".data)])).writes =
      [("A".data, some "x".data)].map (fun f =>
        (f.1, (applyMappingsToJava [] [] (f.2.getD [])).1)) :=
  c3_theorem [] [] [("A".data, some "x".data)] [("C".data, some "y".data)]
    "B".data (by constructor <;> decide) (by decide)

/-- Claim C4, counterexample: two method entries share the bare obfuscated
name m with distinct canonical names run and go, yet the call occurrence
m( is substituted (to run), not left alone. -/
theorem c4_counterexample :
    applyMappingsToJava [] [("A.m".data, "Foo.run".data), ("B.m".data, "Bar.go".data)]
        "x.m();".data = ("x.run();".data, true) ∧
    "x.run();".data ≠ "x.m();".data := by decide

/-- Claim C4 (corrected): on a cross-class collision of the bare
obfuscated method name, the rewriter substitutes the canonical name of
whichever entry comes first in table iteration order — swapping the two
entries swaps the result — and no ambiguity is recorded anywhere. -/
theorem c4_theorem :
    applyMappingsToJava [] [("A.m".data, "Foo.run".data), ("B.m".data, "Bar.go".data)]
        "x.m();".data = ("x.run();".data, true) ∧
    applyMappingsToJava [] [("B.m".data, "Bar.go".data), ("A.m".data, "Foo.run".data)]
        "x.m();".data = ("x.go();".data, true) := by decide

/-- Claim C5 (confirmed): with the class mappings a to Foo and b to Bar,
the example input rewrites exactly to the expected output, every class
position covered. -/
theorem c5_theorem :
    applyMappingsToJava [("a".data, "Foo".data), ("b".data, "Bar".data)] []
        "class a extends b \x7b a x = new a(); \x7d".data =
      ("class Foo extends Bar \x7b Foo x = new Foo(); \x7d".data, true) := by decide

/-- Claim C6, counterexample: with the single class mapping a to Foo, the
input abc a does not rewrite to abc Foo. -/
theorem c6_counterexample :
    (applyMappingsToJava [("a".data, "Foo".data)] [] "abc a".data).1 ≠
      "abc Foo".data := by decide

/-- Claim C6 (corrected): the mapping a to Foo does not alter the
substring a inside abc, but it also leaves the trailing standalone a
untouched — a bare class identifier not followed by another identifier or
a parenthesis matches none of the rewrite patterns — so abc a comes back
unchanged with changed false, while abc a x (where the a is followed by a
declared variable) rewrites to abc Foo x with abc still intact. -/
theorem c6_theorem :
    applyMappingsToJava [("a".data, "Foo".data)] [] "abc a".data =
      ("abc a".data, false) ∧
    applyMappingsToJava [("a".data, "Foo".data)] [] "abc a x".data =
      ("abc Foo x".data, true) := by decide

/-- Claim C7, counterexample: for the ProGuard member line void run() to
a under current obfuscated class c, the loader keys the method entry c.a
but stores canonical component void run — the leading type token is not
stripped, so the canonical value differs from the one the claim states. -/
theorem c7_counterexample :
    (loadProguard ["com.example.X -> c:".data, "    void run() -> a".data]).methods =
      [("c.a".data, "com.example.X.void run".data)] ∧
    "com.example.X.void run".data ≠ "com.example.X.run".data := by decide

/-- Claim C7 (corrected): the loader stores as canonical method name the
entire text before the parenthesis without stripping the leading type
token — for any left part made of non-parenthesis characters the split
keeps it whole, and a member line boolean isEmpty() to b under class d
yields the entry d.b with canonical component boolean isEmpty. -/
theorem c7_theorem :
    (∀ pre rest : List Char, (∀ c ∈ pre, c ≠ '(') →
      List.takeWhile (fun c => !(c == '(')) (pre ++ '(' :: rest) = pre) ∧
    (loadProguard ["com.example.Y -> d:".data, "    boolean isEmpty() -> b".data]).methods =
      [("d.b".data, "com.example.Y.boolean isEmpty".data)] := by
  constructor
  · intro pre rest h
    induction pre with
    | nil => simp
    | cons c cs ih =>
      have hc : (c == '(') = false := by
        simpa using h c (List.mem_cons_self c cs)
      simp only [List.cons_append, List.takeWhile_cons, hc, Bool.not_false, if_true]
      exact congrArg (c :: ·) (ih (fun x hx => h x (List.mem_cons_of_mem c hx)))
  · decide

/-- Claim C7, witness for the corrected statement at the left part void
run of the counterexample line. -/
theorem c7_witness :
    List.takeWhile (fun c => !(c == '(')) ("void run".data ++ '(' :: ") -> a".data) =
      "void run".data :=
  c7_theorem.1 "void run".data ") -> a".data (by decide)

/-- Claim C8 (confirmed): rewriting any text with an empty mapping table
returns the original text and changed false. -/
theorem c8_theorem (content : List Char) :
    applyMappingsToJava [] [] content = (content, false) := by
  simp [applyMappingsToJava, rewriteCore]

/-- Claim C9 (confirmed): a canonical class value without a dot — the
slash-qualified form the SRG loader stores — is used whole as the
replacement name, so class a rewrites to the full slash-qualified value,
not to its last path segment. -/
theorem c9_theorem :
    (∀ mapped : List Char, mapped.contains '.' = false →
      mappedClassName mapped = mapped) ∧
    applyMappingsToJava [("a".data, "com/example/Foo".data)] [] "class a".data =
      ("class com/example/Foo".data, true) := by
  constructor
  · intro mapped h
    unfold mappedClassName
    rw [if_neg (by simpa using h)]
  · decide

/-- Claim C9, witness for the universal part at the slash-qualified value
of the example. -/
theorem c9_witness :
    mappedClassName "com/example/Foo".data = "com/example/Foo".data :=
  c9_theorem.1 "com/example/Foo".data (by decide)

/-- Claim C10 (confirmed): the files written by the batch are exactly the
successfully read files (the prefix before any failing read), each at its
mirrored relative path with its rewritten content — files whose rewrite
changed nothing included. -/
theorem c10_theorem (classes methods : List (List Char × List Char))
    (files : List (List Char × Option (List Char)))
    (_hwf : wfTable classes methods) :
    (deobfuscateBatch classes methods files).writes =
      (files.takeWhile (fun f => f.2.isSome)).map
        (fun f => (f.1, (applyMappingsToJava classes methods (f.2.getD [])).1)) := by
  induction files with
  | nil => simp [deobfuscateBatch]
  | cons f fs ih =>
    cases hf : f.2 with
    | none => simp [deobfuscateBatch, hf]
    | some t => simp [deobfuscateBatch, hf, ih]

/-- Claim C10, witness on a concrete batch containing a changed file, an
unchanged file and a failing file. -/
theorem c10_witness :
    (deobfuscateBatch [("a".data, "Foo".data)] []
        [("F".data, some "a x;".data), ("G".data, some "y".data),
         ("H".data, none)]).writes =
      ([("F".data, some "a x;".data), ("G".data, some "y".data),
        ("H".data, (none : Option (List Char)))].takeWhile
          (fun f => f.2.isSome)).map
        (fun f => (f.1, (applyMappingsToJava [("a".data, "Foo".data)] []
          (f.2.getD [])).1)) :=
  c10_theorem [("a".data, "Foo".data)] []
    [("F".data, some "a x;".data), ("G".data, some "y".data), ("H".data, none)]
    (by constructor <;> decide)

end Vulture
